import Mathlib

/-!
Verification of `fades/main.py` (the `fades` command-line runner).

The development shallowly embeds the two functions of the module:

* `_parse_argv` — the ad-hoc argv splitting (a pure function on lists of
  strings; Python's `IndexError` on `argv[0][0]` for an empty string is
  modelled by returning `none`);
* `go` — the main driver.  Its interactions with the outside world
  (printing, logging, the dependency parsers, the venvs cache, the env
  builder, process creation, signal handling, waiting) are modelled as a
  trace of events; the responses of the external collaborators are
  supplied by a `World` record, so `go` becomes a pure function
  `World → List Event × Outcome`.
-/

namespace Fades

/-! ## Signals

POSIX/Linux numeric values of the signals named in `REDIRECTED_SIGNALS`. -/

def SIGABRT : Nat := 6
def SIGFPE : Nat := 8
def SIGILL : Nat := 4
def SIGINT : Nat := 2
def SIGSEGV : Nat := 11
def SIGTERM : Nat := 15

/-- The signals to redirect to the child process, in source order. -/
def REDIRECTED_SIGNALS : List Nat :=
  [SIGABRT, SIGFPE, SIGILL, SIGINT, SIGSEGV, SIGTERM]

/-! ## `_parse_argv` -/

/-- Python `str.split()` with no argument: split on runs of whitespace,
dropping empty pieces.  (Stated on the underlying character list so that
it evaluates by kernel reduction.) -/
def pySplit (s : String) : List String :=
  ((s.data.splitOnP Char.isWhitespace).filter (fun t => t ≠ [])).map String.mk

/-- The test `argv[0][0] == '-'`, applied to a non-empty string `s`:
its first character is a dash. -/
def startsWithDash (s : String) : Bool :=
  s.front == '-'

/-- The `while argv and argv[0][0] == '-':` loop of `_parse_argv`, followed
by the final `return`.  The accumulator `fades_options` collects the
whitespace-split leading dash arguments.  Evaluating `argv[0][0]` on an
empty string raises `IndexError` in Python; this is modelled by `none`. -/
def parseArgvLoop (fades_options : List String) :
    List String → Option (List String × String × List String)
  | [] => some (fades_options, "", [])
  | a :: rest =>
    if a = "" then
      none
    else if startsWithDash a then
      parseArgvLoop (fades_options ++ pySplit a) rest
    else
      some (fades_options, a, rest)

/-- `_parse_argv(argv)`: drop the executable name, then split the rest into
fades options, child program and child options. -/
def _parse_argv (argv : List String) :
    Option (List String × String × List String) :=
  parseArgvLoop [] (argv.drop 1)

/-! ## The effect model for `go` -/

/-- Parsed dependency declarations (the result of `parsing.parse_string` /
`parsing.parse_file`); treated as opaque data by `go`, represented
concretely so that runs can be evaluated. -/
abbrev Deps := List String

/-- The `installed` data returned by `envbuilder.create_venv`; opaque to
`go`, only handed to `venvscache.store`. -/
abbrev Installed := List String

/-- The venv data dictionary: `go` only reads its `env_bin_path` entry. -/
structure VenvData where
  env_bin_path : String
deriving DecidableEq, Repr

/-- Logging levels used by `go` (`logging.DEBUG` / `WARNING` / `INFO`). -/
inductive LogLevel
  | DEBUG
  | WARNING
  | INFO
deriving DecidableEq, Repr

/-- One observable interaction of `go` with the outside world. -/
inductive Event
  | print (s : String)
  | setupLogger (level : LogLevel)
  | logDebug (s : String)
  | logWarning (s : String)
  | parseString (child_program : String)
  | parseFile (child_program : String)
  | getVenv (deps : Deps)
  | createVenv (deps : Deps)
  | storeVenv (installed : Installed) (venv : VenvData)
  | popen (args : List String)
  | installHandler (sig : Nat)
  | wait (pid : Nat)
  | kill (pid : Nat) (sig : Nat)
deriving DecidableEq, Repr

/-- How the `go` invocation of the fades process terminates.

`exitedOk` is `sys.exit()` with no argument (process status 0);
`returnedNormally` is `go` falling off its end (the caller then exits the
process with status 0); `raisedException` is an unhandled exception
(CPython terminates with status 1); `killedBySignal` is the process dying
from a signal with default disposition (status 128 + signal). -/
inductive Outcome
  | exitedOk
  | returnedNormally
  | raisedException
  | killedBySignal (sig : Nat)
deriving DecidableEq, Repr

/-- The numeric process exit status an `Outcome` produces. -/
def reportedStatus : Outcome → Int
  | .exitedOk => 0
  | .returnedNormally => 0
  | .raisedException => 1
  | .killedBySignal s => 128 + s

/-- The responses of everything outside `go`: the process-global
`sys.argv`, the results of the external collaborators, whether
`subprocess.Popen` succeeds, the child's pid, the signals delivered to the
fades process while it waits for the child, and the child's exit code. -/
structure World where
  sysArgv : List String
  parse_string : String → Deps
  parse_file : String → Deps
  get_venv : Deps → Option VenvData
  create_venv : Deps → VenvData × Installed
  popenOk : Bool
  childPid : Nat
  waitSignals : List Nat
  childExit : Int

/-- `os.path.join(a, b)` for a relative `b`.  (The trailing-separator test
is stated on the character list so that it evaluates by kernel
reduction.) -/
def pathJoin (a b : String) : String :=
  if a = "" then b
  else if a.data.getLast? = some '/' then a ++ b
  else a ++ "/" ++ b

/-- The body of `_signal_handler(signum, _)`: log at debug level, then
`os.kill(p.pid, signum)` — forward the same signal number to the child. -/
def _signal_handler (pid : Nat) (signum : Nat) : List Event :=
  [Event.logDebug ("Redirecting signal " ++ toString signum ++ " to child"),
   Event.kill pid signum]

/-- Delivery of the pending signals while the fades process blocks in
`p.wait()`.  A signal with an installed handler runs `_signal_handler`
(the process keeps waiting); a signal without a handler has its default
disposition, which for the terminating signals considered here kills the
fades process: delivery stops and the fatal signal is returned. -/
def deliverSignals (pid : Nat) (handlers : List Nat) :
    List Nat → List Event × Option Nat
  | [] => ([], none)
  | s :: rest =>
    if s ∈ handlers then
      let r := deliverSignals pid handlers rest
      (_signal_handler pid s ++ r.1, r.2)
    else
      ([], some s)

/-- The tail of `go`: `rc = p.wait()`, with the installed `handlers`
active while waiting; then `if rc: l.debug(...)` and the implicit
`return None`. -/
def waitPhase (w : World) (handlers : List Nat) : List Event × Outcome :=
  let ds := deliverSignals w.childPid handlers w.waitSignals
  match ds.2 with
  | some s => (Event.wait w.childPid :: ds.1, Outcome.killedBySignal s)
  | none =>
    if w.childExit ≠ 0 then
      (Event.wait w.childPid :: ds.1 ++
        [Event.logDebug ("Child process not finished correctly: returncode="
          ++ toString w.childExit)],
       Outcome.returnedNormally)
    else
      (Event.wait w.childPid :: ds.1, Outcome.returnedNormally)

/-- The logging set-up section of `go`: compute the log level from the
flags, `logger.set_up(log_level)`, the two version debug lines, and the
warning when both `-v` and `-q` were given. -/
def preEvents (version : String) (fades_options : List String) : List Event :=
  let verbose := fades_options.contains "-v" || fades_options.contains "--verbose"
  let quiet := fades_options.contains "-q" || fades_options.contains "--quiet"
  let log_level := if verbose then LogLevel.DEBUG
                   else if quiet then LogLevel.WARNING
                   else LogLevel.INFO
  [Event.setupLogger log_level,
   Event.logDebug "Running Python <version_info> on <platform>",
   Event.logDebug ("Starting fades v. " ++ version)] ++
  (if verbose && quiet then
    [Event.logWarning "Overriding 'quiet' option ('verbose' also requested)"]
   else [])

/-- The virtualenvs manager section of `go`:
`venv_data = venvscache.get_venv(requested_deps)`, and on a miss
`venv_data, installed = envbuilder.create_venv(requested_deps)` followed by
`venvscache.store(installed, venv_data)`.  Returns the resolved venv data
and the events of this section. -/
def resolveVenv (w : World) (requested_deps : Deps) : VenvData × List Event :=
  match w.get_venv requested_deps with
  | some venv_data => (venv_data, [Event.getVenv requested_deps])
  | none =>
    let r := w.create_venv requested_deps
    (r.1, [Event.getVenv requested_deps,
           Event.createVenv requested_deps,
           Event.storeVenv r.2 r.1])

/-- The launch-and-wait section of `go`: build `python_exe`, start the
child with `subprocess.Popen` (interactive: the interpreter alone;
otherwise interpreter, child program, child options), then — only in the
non-interactive branch — install `_signal_handler` for each signal of
`REDIRECTED_SIGNALS`, and finally wait for the child.  A failing `Popen`
raises, which propagates out of `go`. -/
def launchAndWait (w : World) (python_exe : String) (child_program : String)
    (child_options : List String) (interactive : Bool) : List Event × Outcome :=
  if interactive then
    let t := [Event.logDebug "Calling the interactive Python interpreter",
              Event.popen [python_exe]]
    if w.popenOk then
      let wp := waitPhase w []
      (t ++ wp.1, wp.2)
    else
      (t, Outcome.raisedException)
  else
    let t := [Event.logDebug ("Calling the child Python program "
                ++ child_program ++ " with options " ++ toString child_options),
              Event.popen ([python_exe, child_program] ++ child_options)]
    if w.popenOk then
      let t' := t ++ REDIRECTED_SIGNALS.map Event.installHandler
      let wp := waitPhase w REDIRECTED_SIGNALS
      (t' ++ wp.1, wp.2)
    else
      (t, Outcome.raisedException)

/-- The `USAGE` text (content immaterial to the verified properties). -/
def USAGE : String := "Usage: fades ..."

/-- `go(version, argv)`.  Mirrors `main.go`: note that it parses the
process-global `sys.argv` (`w.sysArgv`) and never reads its `argv`
parameter.  In the missing-child-program branch the Python code has an
`if interactive: / else:` whose two arms print the same message, so the
branch prints it unconditionally. -/
def go (version : String) (argv : List String) (w : World) :
    List Event × Outcome :=
  match _parse_argv w.sysArgv with
  | none => ([], Outcome.raisedException)
  | some (fades_options, child_program, child_options) =>
    if fades_options.contains "-V" || fades_options.contains "--version" then
      ([Event.print ("Running 'fades' version " ++ version),
        Event.print "    Python: <version_info>",
        Event.print "    System: <platform>"],
       Outcome.exitedOk)
    else if fades_options.contains "-h" || fades_options.contains "--help" then
      ([Event.print USAGE], Outcome.exitedOk)
    else if child_program = "" then
      ([Event.print "ERROR: the 'child program' is mandatory (unless --interactive).",
        Event.print USAGE],
       Outcome.exitedOk)
    else
      let interactive := fades_options.contains "-i"
                         || fades_options.contains "--interactive"
      let requested_deps := if interactive then w.parse_string child_program
                            else w.parse_file child_program
      let parseEv := if interactive then Event.parseString child_program
                     else Event.parseFile child_program
      let res := resolveVenv w requested_deps
      let python_exe := pathJoin res.1.env_bin_path "python3"
      let lw := launchAndWait w python_exe child_program child_options interactive
      (preEvents version fades_options ++ parseEv :: res.2 ++ lw.1, lw.2)

/-! ## Run-shape helpers -/

/-- The `interactive` flag computed by `go`. -/
def isInteractive (fades_options : List String) : Bool :=
  fades_options.contains "-i" || fades_options.contains "--interactive"

/-- The dependencies `go` requests for a given run. -/
def requestedDeps (w : World) (fades_options : List String)
    (child_program : String) : Deps :=
  if isInteractive fades_options then w.parse_string child_program
  else w.parse_file child_program

/-- The `python_exe` a given run computes. -/
def runExe (w : World) (fades_options : List String)
    (child_program : String) : String :=
  pathJoin (resolveVenv w (requestedDeps w fades_options child_program)).1.env_bin_path
    "python3"

/-- A run of `go` that neither hits an argv-parsing error nor one of the
early `sys.exit` branches (`-V`/`--version`, `-h`/`--help`, missing child
program), so it goes on to resolve a venv and launch the child. -/
def ReachesLaunch (w : World) (fades_options : List String)
    (child_program : String) (child_options : List String) : Prop :=
  _parse_argv w.sysArgv = some (fades_options, child_program, child_options) ∧
  (fades_options.contains "-V" || fades_options.contains "--version") = false ∧
  (fades_options.contains "-h" || fades_options.contains "--help") = false ∧
  child_program ≠ ""

/-! ## Event classifiers -/

/-- Events of the logging/printing kind: everything the pre-launch part of
a run emits. -/
def isLogEvent : Event → Bool
  | .print _ => true
  | .setupLogger _ => true
  | .logDebug _ => true
  | .logWarning _ => true
  | _ => false

/-- Events the cache section can emit. -/
def isCacheEvent : Event → Bool
  | .getVenv _ => true
  | .createVenv _ => true
  | .storeVenv _ _ => true
  | _ => false

/-- Events the waiting phase can emit. -/
def isWaitEvent : Event → Bool
  | .wait _ => true
  | .logDebug _ => true
  | .kill _ _ => true
  | _ => false

/-- Events the launch-and-wait section can emit. -/
def isRunEvent : Event → Bool
  | .logDebug _ => true
  | .popen _ => true
  | .installHandler _ => true
  | .wait _ => true
  | .kill _ _ => true
  | _ => false

/-! ## Concrete fixture worlds -/

/-- A concrete world: `fades -v script.py --flag x`, cache miss for the
script's dependencies, successful launch, an interrupt and a terminate
delivered while waiting, child exit code 3. -/
def sampleWorld : World :=
  { sysArgv := ["fades", "-v", "script.py", "--flag", "x"],
    parse_string := fun _ => ["dep_interactive"],
    parse_file := fun _ => ["dep_file"],
    get_venv := fun d => if d = ["dep_file"] then none
                         else some { env_bin_path := "/venvs/cached/bin" },
    create_venv := fun _ => ({ env_bin_path := "/venvs/built/bin" }, ["pkg==1.0"]),
    popenOk := true,
    childPid := 4321,
    waitSignals := [SIGINT, SIGTERM],
    childExit := 3 }

/-- `sampleWorld` with a failing `subprocess.Popen`. -/
def failWorld : World :=
  { sampleWorld with popenOk := false }

/-- A concrete world: a plain script run, cache hit, successful launch, no
signals delivered, child exit code 7. -/
def exitWorld7 : World :=
  { sysArgv := ["fades", "script.py"],
    parse_string := fun _ => ["reqs"],
    parse_file := fun _ => ["reqs"],
    get_venv := fun _ => some { env_bin_path := "/venvs/x/bin" },
    create_venv := fun _ => ({ env_bin_path := "/venvs/x/bin" }, ["reqs"]),
    popenOk := true,
    childPid := 1234,
    waitSignals := [],
    childExit := 7 }

/-- Shape of a launching run: the trace is the logging section, the
dependency-parsing event, the cache section and the launch-and-wait
section, and the outcome is that of the launch-and-wait section. -/
theorem go_run (v : String) (a : List String) (w : World)
    (fo : List String) (cp : String) (co : List String)
    (h : ReachesLaunch w fo cp co) :
    go v a w =
      (preEvents v fo ++
        (if isInteractive fo then Event.parseString cp else Event.parseFile cp) ::
        (resolveVenv w (requestedDeps w fo cp)).2 ++
        (launchAndWait w (runExe w fo cp) cp co (isInteractive fo)).1,
       (launchAndWait w (runExe w fo cp) cp co (isInteractive fo)).2) := by
  obtain ⟨hp, hV, hh, hc⟩ := h
  unfold go
  rw [hp]
  simp only [hV, hh, Bool.false_eq_true, if_false, if_neg hc,
    isInteractive, requestedDeps, runExe]

/-! ## Classifying the events of each section -/

theorem preEvents_isLog (v : String) (fo : List String) :
    ∀ e ∈ preEvents v fo, isLogEvent e = true := by
  intro e he
  simp only [preEvents, List.mem_append, List.mem_cons, List.not_mem_nil,
    or_false] at he
  rcases he with (rfl | rfl | rfl) | he
  · rfl
  · rfl
  · rfl
  · split at he
    · simp only [List.mem_cons, List.not_mem_nil, or_false] at he
      subst he; rfl
    · simp at he

theorem deliverSignals_isWait (pid : Nat) (handlers : List Nat)
    (sigs : List Nat) :
    ∀ e ∈ (deliverSignals pid handlers sigs).1, isWaitEvent e = true := by
  induction sigs with
  | nil => simp [deliverSignals]
  | cons s rest ih =>
    intro e he
    simp only [deliverSignals] at he
    split at he
    · simp only [_signal_handler, List.cons_append, List.nil_append,
        List.mem_cons] at he
      rcases he with rfl | rfl | he
      · rfl
      · rfl
      · exact ih e he
    · simp at he

theorem waitPhase_isWait (w : World) (handlers : List Nat) :
    ∀ e ∈ (waitPhase w handlers).1, isWaitEvent e = true := by
  intro e he
  simp only [waitPhase] at he
  split at he
  · simp only [List.mem_cons] at he
    rcases he with rfl | he
    · rfl
    · exact deliverSignals_isWait _ _ _ e he
  · split at he <;>
      simp only [List.mem_append, List.mem_cons, List.not_mem_nil,
        or_false] at he
    · rcases he with (rfl | he) | rfl
      · rfl
      · exact deliverSignals_isWait _ _ _ e he
      · rfl
    · rcases he with rfl | he
      · rfl
      · exact deliverSignals_isWait _ _ _ e he

theorem isWait_isRun (e : Event) (h : isWaitEvent e = true) :
    isRunEvent e = true := by
  cases e <;> simp_all [isWaitEvent, isRunEvent]

theorem launchAndWait_isRun (w : World) (exe cp : String) (co : List String)
    (i : Bool) :
    ∀ e ∈ (launchAndWait w exe cp co i).1, isRunEvent e = true := by
  intro e he
  simp only [launchAndWait] at he
  split at he <;> split at he <;>
    simp only [List.cons_append, List.nil_append, List.mem_cons,
      List.mem_append, List.mem_map, List.not_mem_nil, or_false] at he
  · rcases he with rfl | rfl | he
    · rfl
    · rfl
    · exact isWait_isRun e (waitPhase_isWait _ _ e he)
  · rcases he with rfl | rfl
    · rfl
    · rfl
  · rcases he with rfl | rfl | ⟨s, _, rfl⟩ | he
    · rfl
    · rfl
    · rfl
    · exact isWait_isRun e (waitPhase_isWait _ _ e he)
  · rcases he with rfl | rfl
    · rfl
    · rfl

theorem resolveVenv_isCache (w : World) (d : Deps) :
    ∀ e ∈ (resolveVenv w d).2, isCacheEvent e = true := by
  intro e he
  simp only [resolveVenv] at he
  split at he <;>
    simp only [List.mem_cons, List.not_mem_nil, or_false] at he
  · subst he; rfl
  · rcases he with rfl | rfl | rfl <;> rfl

/-! ## Membership facts for specific event kinds -/

theorem not_mem_preEvents (v : String) (fo : List String) (e : Event)
    (he : isLogEvent e = false) : e ∉ preEvents v fo := by
  intro hm
  rw [preEvents_isLog v fo e hm] at he
  exact Bool.noConfusion he

theorem not_mem_resolveVenv (w : World) (d : Deps) (e : Event)
    (he : isCacheEvent e = false) : e ∉ (resolveVenv w d).2 := by
  intro hm
  rw [resolveVenv_isCache w d e hm] at he
  exact Bool.noConfusion he

theorem not_mem_waitPhase (w : World) (handlers : List Nat) (e : Event)
    (he : isWaitEvent e = false) : e ∉ (waitPhase w handlers).1 := by
  intro hm
  rw [waitPhase_isWait w handlers e hm] at he
  exact Bool.noConfusion he

theorem not_mem_launchAndWait (w : World) (exe cp : String) (co : List String)
    (i : Bool) (e : Event) (he : isRunEvent e = false) :
    e ∉ (launchAndWait w exe cp co i).1 := by
  intro hm
  rw [launchAndWait_isRun w exe cp co i e hm] at he
  exact Bool.noConfusion he

/-- The cache section always performs the lookup. -/
theorem resolveVenv_getVenv_mem (w : World) (d : Deps) :
    Event.getVenv d ∈ (resolveVenv w d).2 := by
  simp only [resolveVenv]
  rcases w.get_venv d with _ | vd <;> simp

/-- The cache section builds exactly on a lookup miss. -/
theorem resolveVenv_createVenv_mem (w : World) (d d' : Deps) :
    Event.createVenv d' ∈ (resolveVenv w d).2 ↔
      d' = d ∧ w.get_venv d = none := by
  simp only [resolveVenv]
  rcases hg : w.get_venv d with _ | vd <;> simp

/-- The cache section stores exactly on a lookup miss, and stores exactly
the build result. -/
theorem resolveVenv_storeVenv_mem (w : World) (d : Deps) (i : Installed)
    (x : VenvData) :
    Event.storeVenv i x ∈ (resolveVenv w d).2 ↔
      w.get_venv d = none ∧ i = (w.create_venv d).2 ∧ x = (w.create_venv d).1 := by
  simp only [resolveVenv]
  rcases hg : w.get_venv d with _ | vd <;> simp

/-- The one process launch of the launch-and-wait section. -/
theorem launchAndWait_popen_mem (w : World) (exe cp : String) (co : List String)
    (i : Bool) (args : List String) :
    Event.popen args ∈ (launchAndWait w exe cp co i).1 ↔
      args = (if i then [exe] else exe :: cp :: co) := by
  have hwp : ∀ hs, Event.popen args ∉ (waitPhase w hs).1 :=
    fun hs => not_mem_waitPhase w hs _ rfl
  cases i <;> cases hpo : w.popenOk <;>
    simp [launchAndWait, hpo, hwp, List.mem_map]

/-- Handler installation happens exactly in a non-interactive run whose
launch succeeded, and exactly for the redirected signals. -/
theorem launchAndWait_installHandler_mem (w : World) (exe cp : String)
    (co : List String) (i : Bool) (s : Nat) :
    Event.installHandler s ∈ (launchAndWait w exe cp co i).1 ↔
      i = false ∧ w.popenOk = true ∧ s ∈ REDIRECTED_SIGNALS := by
  have hwp : ∀ hs, Event.installHandler s ∉ (waitPhase w hs).1 :=
    fun hs => not_mem_waitPhase w hs _ rfl
  cases i <;> cases hpo : w.popenOk <;>
    simp [launchAndWait, hpo, hwp, List.mem_map]

/-- A failing `Popen` propagates as an exception. -/
theorem launchAndWait_raised (w : World) (exe cp : String) (co : List String)
    (i : Bool) (hpo : w.popenOk = false) :
    (launchAndWait w exe cp co i).2 = Outcome.raisedException := by
  cases i <;> simp [launchAndWait, hpo]

/-- After a successful launch the outcome is that of the waiting phase,
with handlers installed only in the non-interactive case. -/
theorem launchAndWait_outcome (w : World) (exe cp : String) (co : List String)
    (i : Bool) (hpo : w.popenOk = true) :
    (launchAndWait w exe cp co i).2 =
      (waitPhase w (if i then [] else REDIRECTED_SIGNALS)).2 := by
  cases i <;> simp [launchAndWait, hpo]

/-- The trace of a successful non-interactive launch, spelt out. -/
theorem launchAndWait_trace_success (w : World) (exe cp : String)
    (co : List String) (hpo : w.popenOk = true) :
    (launchAndWait w exe cp co false).1 =
      [Event.logDebug ("Calling the child Python program " ++ cp
          ++ " with options " ++ toString co),
       Event.popen ([exe, cp] ++ co)] ++
      REDIRECTED_SIGNALS.map Event.installHandler ++
      (waitPhase w REDIRECTED_SIGNALS).1 := by
  simp [launchAndWait, hpo]

/-! ## Waiting-phase facts -/

/-- When every delivered signal has an installed handler, delivery is not
fatal and each signal is forwarded to the child by `os.kill`. -/
theorem deliverSignals_all_handled (pid : Nat) (handlers : List Nat) :
    ∀ sigs : List Nat, (∀ s ∈ sigs, s ∈ handlers) →
      (deliverSignals pid handlers sigs).2 = none ∧
      ∀ s ∈ sigs, Event.kill pid s ∈ (deliverSignals pid handlers sigs).1 := by
  intro sigs
  induction sigs with
  | nil => intro _; simp [deliverSignals]
  | cons s rest ih =>
    intro h
    have hs1 : s ∈ handlers := h s (List.mem_cons_self s rest)
    obtain ⟨h1, h2⟩ := ih (fun t ht => h t (List.mem_cons_of_mem s ht))
    refine ⟨?_, ?_⟩
    · simp only [deliverSignals, if_pos hs1]
      exact h1
    · intro t ht
      rcases List.mem_cons.1 ht with rfl | ht'
      · simp [deliverSignals, if_pos hs1, _signal_handler]
      · simp only [deliverSignals, if_pos hs1, _signal_handler,
          List.cons_append, List.nil_append, List.mem_cons]
        exact Or.inr (Or.inr (h2 t ht'))

/-- Non-fatal signal delivery: the wait ends with the child's exit and
`go` returns normally. -/
theorem waitPhase_returnedNormally (w : World) (handlers : List Nat)
    (hfat : (deliverSignals w.childPid handlers w.waitSignals).2 = none) :
    (waitPhase w handlers).2 = Outcome.returnedNormally := by
  simp only [waitPhase, hfat]
  split <;> rfl

/-- When every delivered signal has an installed handler, the waiting
phase ends normally and has forwarded each signal to the child. -/
theorem waitPhase_all_handled (w : World) (handlers : List Nat)
    (h : ∀ s ∈ w.waitSignals, s ∈ handlers) :
    (waitPhase w handlers).2 = Outcome.returnedNormally ∧
    ∀ s ∈ w.waitSignals, Event.kill w.childPid s ∈ (waitPhase w handlers).1 := by
  obtain ⟨h1, h2⟩ := deliverSignals_all_handled w.childPid handlers w.waitSignals h
  refine ⟨waitPhase_returnedNormally w handlers h1, ?_⟩
  intro s hs
  simp only [waitPhase, h1]
  split <;> simp [h2 s hs]

/-- A non-zero exit code contributes exactly one debug-level log line to
the waiting phase, compared to the same world with exit code 0. -/
theorem waitPhase_nonzero_exit (w : World) (handlers : List Nat)
    (hfat : (deliverSignals w.childPid handlers w.waitSignals).2 = none)
    (hrc : w.childExit ≠ 0) :
    (waitPhase w handlers).1 =
      (waitPhase { w with childExit := 0 } handlers).1 ++
        [Event.logDebug ("Child process not finished correctly: returncode="
          ++ toString w.childExit)] := by
  simp only [waitPhase, hfat]
  rw [if_pos hrc]
  simp

/-! ## `_parse_argv` facts -/

/-- Full characterisation of the option-scanning loop on argument lists
free of empty strings: the maximal leading run of dash arguments is
whitespace-split into the accumulated fades options, the next argument (if
any) is the child program, and everything after it is returned verbatim. -/
theorem parseArgvLoop_spec (l : List String) :
    ∀ fades_options : List String, (∀ s ∈ l, s ≠ "") →
      parseArgvLoop fades_options l =
        some (fades_options ++ ((l.takeWhile startsWithDash).map pySplit).flatten,
              (l.dropWhile startsWithDash).headD "",
              (l.dropWhile startsWithDash).tail) := by
  induction l with
  | nil => intro fo _; simp [parseArgvLoop]
  | cons a rest ih =>
    intro fo h
    have ha : a ≠ "" := h a (List.mem_cons_self a rest)
    have hrest : ∀ s ∈ rest, s ≠ "" := fun s hs => h s (List.mem_cons_of_mem a hs)
    by_cases hd : startsWithDash a
    · simp only [parseArgvLoop, if_neg ha, if_pos hd,
        ih (fo ++ pySplit a) hrest, List.takeWhile_cons, List.dropWhile_cons,
        hd, if_pos, List.map_cons, List.flatten_cons, List.append_assoc]
    · simp only [parseArgvLoop, if_neg ha, if_neg hd, List.takeWhile_cons,
        List.dropWhile_cons, hd, Bool.false_eq_true, if_false, List.map_nil,
        List.flatten_nil, List.append_nil, List.headD_cons, List.tail_cons]

/-- The loop returns a result whenever no empty string appears. -/
theorem parseArgvLoop_total (l : List String) (fades_options : List String)
    (h : ∀ s ∈ l, s ≠ "") : (parseArgvLoop fades_options l).isSome = true := by
  rw [parseArgvLoop_spec l fades_options h]
  rfl

/-! ## Case analysis of a whole `go` run -/

/-- Every run of `go` either stops before the venv/launch work — and then
its trace holds only printing/logging events — or satisfies
`ReachesLaunch`. -/
theorem go_trace_cases (v : String) (a : List String) (w : World) :
    (∀ e ∈ (go v a w).1, isLogEvent e = true) ∨
    ∃ fo cp co, ReachesLaunch w fo cp co := by
  rcases hp : _parse_argv w.sysArgv with _ | ⟨fo, cp, co⟩
  · left; unfold go; rw [hp]; simp
  · by_cases hV : (fo.contains "-V" || fo.contains "--version") = true
    · left
      unfold go; rw [hp]
      simp only [hV, if_true]
      intro e he
      simp only [List.mem_cons, List.not_mem_nil, or_false] at he
      rcases he with rfl | rfl | rfl <;> rfl
    · by_cases hh : (fo.contains "-h" || fo.contains "--help") = true
      · left
        unfold go; rw [hp]
        have hV' : (fo.contains "-V" || fo.contains "--version") = false := by
          simpa using hV
        simp only [hV', Bool.false_eq_true, if_false, hh, if_true]
        intro e he
        simp only [List.mem_cons, List.not_mem_nil, or_false] at he
        subst he; rfl
      · by_cases hc : cp = ""
        · left
          unfold go; rw [hp]
          have hV' : (fo.contains "-V" || fo.contains "--version") = false := by
            simpa using hV
          have hh' : (fo.contains "-h" || fo.contains "--help") = false := by
            simpa using hh
          simp only [hV', hh', Bool.false_eq_true, if_false, if_pos hc]
          intro e he
          simp only [List.mem_cons, List.not_mem_nil, or_false] at he
          rcases he with rfl | rfl <;> rfl
        · right
          exact ⟨fo, cp, co, hp, by simpa using hV, by simpa using hh, hc⟩

/-! ## The claims -/

/-- C1: exit-code fidelity fails in the code.  In a run whose child exits
with code 7, `go` only logs the return code at debug level and then
returns normally, so the fades process terminates with status 0 — the
child's exit code is not propagated as the supervisor's terminal
status. -/
theorem go_drops_child_exit_code :
    exitWorld7.childExit = 7 ∧
    (go "1.0" ["unused"] exitWorld7).2 = Outcome.returnedNormally ∧
    reportedStatus (go "1.0" ["unused"] exitWorld7).2 = 0 ∧
    Event.logDebug "Child process not finished correctly: returncode=7" ∈
      (go "1.0" ["unused"] exitWorld7).1 := by
  refine ⟨rfl, by decide, by decide, by decide⟩

/-- C2: in a non-interactive run with a successful launch, every signal of
the redirected set delivered while the child runs is forwarded to the
child by `os.kill` with the same signal number, the supervisor keeps
waiting and returns normally, and its outcome is exactly the outcome of
the same run with no signals delivered — its termination is driven only by
the child's exit. -/
theorem go_signal_relay (v : String) (a : List String) (w : World)
    (fo : List String) (cp : String) (co : List String)
    (h : ReachesLaunch w fo cp co)
    (hni : isInteractive fo = false)
    (hpo : w.popenOk = true)
    (hs : ∀ s ∈ w.waitSignals, s ∈ REDIRECTED_SIGNALS) :
    (∀ s ∈ w.waitSignals, Event.kill w.childPid s ∈ (go v a w).1) ∧
    (go v a w).2 = Outcome.returnedNormally ∧
    (go v a w).2 = (go v a { w with waitSignals := [] }).2 := by
  have hwp := waitPhase_all_handled w REDIRECTED_SIGNALS hs
  have h' : ReachesLaunch { w with waitSignals := [] } fo cp co := h
  rw [go_run v a w fo cp co h,
    go_run v a { w with waitSignals := [] } fo cp co h', hni]
  refine ⟨?_, ?_, ?_⟩
  · intro s hsig
    have hk := hwp.2 s hsig
    simp only [List.mem_append]
    right
    simp [launchAndWait, hpo, hk]
  · rw [launchAndWait_outcome w _ cp co false hpo]
    simpa using hwp.1
  · have hpo' : ({ w with waitSignals := [] } : World).popenOk = true := hpo
    have h0 : (launchAndWait { w with waitSignals := [] }
        (runExe { w with waitSignals := [] } fo cp) cp co false).2 =
        Outcome.returnedNormally := by
      rw [launchAndWait_outcome _ _ cp co false hpo']
      exact waitPhase_returnedNormally _ _ rfl
    rw [h0, launchAndWait_outcome w _ cp co false hpo]
    simpa using hwp.1

/-- C3: in every launching run the cache lookup happens; the builder runs
if and only if the lookup missed, and a store happens if and only if the
lookup missed, storing exactly the builder's result.  On a cache hit
neither a build nor a store occurs. -/
theorem go_cache_build_iff_miss (v : String) (a : List String) (w : World)
    (fo : List String) (cp : String) (co : List String)
    (h : ReachesLaunch w fo cp co) :
    Event.getVenv (requestedDeps w fo cp) ∈ (go v a w).1 ∧
    (∀ d, Event.createVenv d ∈ (go v a w).1 ↔
      (d = requestedDeps w fo cp ∧
       w.get_venv (requestedDeps w fo cp) = none)) ∧
    (∀ i x, Event.storeVenv i x ∈ (go v a w).1 ↔
      (w.get_venv (requestedDeps w fo cp) = none ∧
       i = (w.create_venv (requestedDeps w fo cp)).2 ∧
       x = (w.create_venv (requestedDeps w fo cp)).1)) := by
  rw [go_run v a w fo cp co h]
  refine ⟨?_, ?_, ?_⟩
  · simp only [List.mem_append, List.mem_cons]
    exact Or.inl (Or.inr (Or.inr (resolveVenv_getVenv_mem w _)))
  · intro d
    constructor
    · intro hm
      simp only [List.mem_append, List.mem_cons] at hm
      rcases hm with (hm | hm | hm) | hm
      · exact absurd (preEvents_isLog v fo _ hm) (by simp [isLogEvent])
      · split at hm <;> exact Event.noConfusion hm
      · exact (resolveVenv_createVenv_mem w _ d).1 hm
      · exact absurd (launchAndWait_isRun _ _ _ _ _ _ hm) (by simp [isRunEvent])
    · rintro ⟨rfl, hnone⟩
      simp only [List.mem_append, List.mem_cons]
      exact Or.inl (Or.inr (Or.inr
        ((resolveVenv_createVenv_mem w _ _).2 ⟨rfl, hnone⟩)))
  · intro i x
    constructor
    · intro hm
      simp only [List.mem_append, List.mem_cons] at hm
      rcases hm with (hm | hm | hm) | hm
      · exact absurd (preEvents_isLog v fo _ hm) (by simp [isLogEvent])
      · split at hm <;> exact Event.noConfusion hm
      · exact (resolveVenv_storeVenv_mem w _ i x).1 hm
      · exact absurd (launchAndWait_isRun _ _ _ _ _ _ hm) (by simp [isRunEvent])
    · intro hw
      simp only [List.mem_append, List.mem_cons]
      exact Or.inl (Or.inr (Or.inr ((resolveVenv_storeVenv_mem w _ i x).2 hw)))

/-- C4: `REDIRECTED_SIGNALS` is exactly the six documented signals, and in
a launching run a handler is installed for a signal exactly when the run
is non-interactive, the launch succeeded, and the signal is one of the
redirected set — in particular an interactive run installs no handler for
any signal. -/
theorem go_installed_handlers (v : String) (a : List String) (w : World)
    (fo : List String) (cp : String) (co : List String)
    (h : ReachesLaunch w fo cp co) :
    REDIRECTED_SIGNALS = [SIGABRT, SIGFPE, SIGILL, SIGINT, SIGSEGV, SIGTERM] ∧
    (∀ s, Event.installHandler s ∈ (go v a w).1 ↔
      (isInteractive fo = false ∧ w.popenOk = true ∧
       s ∈ REDIRECTED_SIGNALS)) := by
  refine ⟨rfl, ?_⟩
  intro s
  rw [go_run v a w fo cp co h]
  constructor
  · intro hm
    simp only [List.mem_append, List.mem_cons] at hm
    rcases hm with (hm | hm | hm) | hm
    · exact absurd (preEvents_isLog v fo _ hm) (by simp [isLogEvent])
    · split at hm <;> exact Event.noConfusion hm
    · exact absurd (resolveVenv_isCache _ _ _ hm) (by simp [isCacheEvent])
    · exact (launchAndWait_installHandler_mem w _ cp co _ s).1 hm
  · rintro ⟨hi, hpo, hsig⟩
    simp only [List.mem_append, List.mem_cons]
    exact Or.inr ((launchAndWait_installHandler_mem w _ cp co _ s).2
      ⟨hi, hpo, hsig⟩)

/-- C5: in a launching run, the one process launch uses exactly the
resolved environment's `python3` executable; a non-interactive run appends
the child program and then the child options verbatim and in order, an
interactive run passes the interpreter alone. -/
theorem go_child_command_line (v : String) (a : List String) (w : World)
    (fo : List String) (cp : String) (co : List String)
    (h : ReachesLaunch w fo cp co) :
    ∀ args, Event.popen args ∈ (go v a w).1 ↔
      args = (if isInteractive fo then [runExe w fo cp]
              else runExe w fo cp :: cp :: co) := by
  intro args
  rw [go_run v a w fo cp co h]
  constructor
  · intro hm
    simp only [List.mem_append, List.mem_cons] at hm
    rcases hm with (hm | hm | hm) | hm
    · exact absurd (preEvents_isLog v fo _ hm) (by simp [isLogEvent])
    · split at hm <;> exact Event.noConfusion hm
    · exact absurd (resolveVenv_isCache _ _ _ hm) (by simp [isCacheEvent])
    · exact (launchAndWait_popen_mem w _ cp co _ args).1 hm
  · intro ha
    simp only [List.mem_append]
    exact Or.inr ((launchAndWait_popen_mem w _ cp co _ args).2 ha)

/-- C6: when process creation fails, no signal handler is ever installed
in the whole run, and any run that attempted the launch ends by the
exception propagating — the failure is reported before any
signal-forwarding setup. -/
theorem go_launch_failure_no_handlers (v : String) (a : List String)
    (w : World) (hpo : w.popenOk = false) :
    (∀ s, Event.installHandler s ∉ (go v a w).1) ∧
    (∀ args, Event.popen args ∈ (go v a w).1 →
      (go v a w).2 = Outcome.raisedException) := by
  rcases go_trace_cases v a w with hlog | ⟨fo, cp, co, h⟩
  · refine ⟨?_, ?_⟩
    · intro s hm
      exact absurd (hlog _ hm) (by simp [isLogEvent])
    · intro args hm
      exact absurd (hlog _ hm) (by simp [isLogEvent])
  · rw [go_run v a w fo cp co h]
    refine ⟨?_, ?_⟩
    · intro s hm
      simp only [List.mem_append, List.mem_cons] at hm
      rcases hm with (hm | hm | hm) | hm
      · exact absurd (preEvents_isLog v fo _ hm) (by simp [isLogEvent])
      · split at hm <;> exact Event.noConfusion hm
      · exact absurd (resolveVenv_isCache _ _ _ hm) (by simp [isCacheEvent])
      · have hc := (launchAndWait_installHandler_mem w _ cp co _ s).1 hm
        rw [hpo] at hc
        exact Bool.noConfusion hc.2.1
    · intro args _
      exact launchAndWait_raised w _ cp co _ hpo

/-- C7: a non-zero child exit code makes `go` return normally all the
same; the only difference it makes to the whole run, compared to the same
world with exit code 0, is a single debug-level log line reporting the
return code — no exception, no other reaction. -/
theorem go_nonzero_exit_debug_only (v : String) (a : List String) (w : World)
    (fo : List String) (cp : String) (co : List String)
    (h : ReachesLaunch w fo cp co)
    (hni : isInteractive fo = false)
    (hpo : w.popenOk = true)
    (hs : ∀ s ∈ w.waitSignals, s ∈ REDIRECTED_SIGNALS)
    (hrc : w.childExit ≠ 0) :
    (go v a w).2 = Outcome.returnedNormally ∧
    (go v a w).1 = (go v a { w with childExit := 0 }).1 ++
      [Event.logDebug ("Child process not finished correctly: returncode="
        ++ toString w.childExit)] := by
  have hfat : (deliverSignals w.childPid REDIRECTED_SIGNALS w.waitSignals).2 =
      none :=
    (deliverSignals_all_handled w.childPid REDIRECTED_SIGNALS w.waitSignals hs).1
  have h' : ReachesLaunch { w with childExit := 0 } fo cp co := h
  rw [go_run v a w fo cp co h,
    go_run v a { w with childExit := 0 } fo cp co h', hni]
  refine ⟨?_, ?_⟩
  · rw [launchAndWait_outcome w _ cp co false hpo]
    exact waitPhase_returnedNormally w REDIRECTED_SIGNALS hfat
  · have e2 : runExe { w with childExit := 0 } fo cp = runExe w fo cp := rfl
    have e3 : resolveVenv { w with childExit := 0 }
        (requestedDeps { w with childExit := 0 } fo cp) =
        resolveVenv w (requestedDeps w fo cp) := rfl
    rw [e2, e3]
    have hpo0 : ({ w with childExit := 0 } : World).popenOk = true := hpo
    have e4 : (launchAndWait w (runExe w fo cp) cp co false).1 =
        (launchAndWait { w with childExit := 0 } (runExe w fo cp) cp co
          false).1 ++
        [Event.logDebug ("Child process not finished correctly: returncode="
          ++ toString w.childExit)] := by
      rw [launchAndWait_trace_success w _ cp co hpo,
        launchAndWait_trace_success { w with childExit := 0 } _ cp co hpo0,
        waitPhase_nonzero_exit w REDIRECTED_SIGNALS hfat hrc]
      simp [List.append_assoc]
    rw [e4]
    simp [List.append_assoc]

/-- C8: `go` never reads its `argv` parameter — it parses the
process-global `sys.argv` — so its behaviour is identical for any two
values of that parameter. -/
theorem go_ignores_argv_parameter (version : String) (a1 a2 : List String)
    (w : World) : go version a1 w = go version a2 w := rfl

/-- C9: `_parse_argv` is not total on string lists: an argv whose second
element is the empty string makes the unguarded `argv[0][0]` raise
(modelled by `none`), while every argv whose elements after the executable
name are non-empty returns a result. -/
theorem parse_argv_partiality (x : String) (rest : List String)
    (argv : List String) (h : ∀ s ∈ argv.drop 1, s ≠ "") :
    _parse_argv (x :: "" :: rest) = none ∧
    (_parse_argv argv).isSome = true := by
  refine ⟨?_, ?_⟩
  · simp [_parse_argv, parseArgvLoop]
  · exact parseArgvLoop_total (argv.drop 1) [] h

/-- C10 counterexample: on `["fades", ""]` the claim's reading predicts
the returned triple `([], "", [])` (the empty string does not begin with a
dash, so it would become the child program), but `_parse_argv` raises
instead of returning anything. -/
theorem parse_argv_claim_counterexample :
    _parse_argv ["fades", ""] = none ∧
    _parse_argv ["fades", ""] ≠ some ([], "", []) := by
  refine ⟨by decide, by decide⟩

/-- C10 (amended): for every argv whose arguments after the executable
name are all non-empty, `_parse_argv` whitespace-splits the maximal
leading run of dash-initial arguments into the fades options, makes the
first non-dash argument the child program, and returns every argument
after it verbatim; when no non-dash argument exists the child program is
the empty string and the child options are empty. -/
theorem parse_argv_characterization (argv : List String)
    (h : ∀ s ∈ argv.drop 1, s ≠ "") :
    _parse_argv argv =
      some ((((argv.drop 1).takeWhile startsWithDash).map pySplit).flatten,
            ((argv.drop 1).dropWhile startsWithDash).headD "",
            ((argv.drop 1).dropWhile startsWithDash).tail) := by
  have hmain := parseArgvLoop_spec (argv.drop 1) [] h
  simpa [_parse_argv] using hmain

/-! ## Witnesses -/

theorem go_signal_relay_witness :
    ReachesLaunch sampleWorld ["-v"] "script.py" ["--flag", "x"] ∧
    ((∀ s ∈ sampleWorld.waitSignals,
        Event.kill sampleWorld.childPid s ∈ (go "0" [] sampleWorld).1) ∧
     (go "0" [] sampleWorld).2 = Outcome.returnedNormally ∧
     (go "0" [] sampleWorld).2 =
       (go "0" [] { sampleWorld with waitSignals := [] }).2) := by
  have h : ReachesLaunch sampleWorld ["-v"] "script.py" ["--flag", "x"] :=
    ⟨by decide, by decide, by decide, by decide⟩
  exact ⟨h, go_signal_relay "0" [] sampleWorld ["-v"] "script.py"
    ["--flag", "x"] h (by decide) rfl (by decide)⟩

theorem go_cache_build_iff_miss_witness :
    ReachesLaunch sampleWorld ["-v"] "script.py" ["--flag", "x"] ∧
    Event.getVenv ["dep_file"] ∈ (go "0" [] sampleWorld).1 ∧
    Event.createVenv ["dep_file"] ∈ (go "0" [] sampleWorld).1 ∧
    Event.storeVenv ["pkg==1.0"] { env_bin_path := "/venvs/built/bin" } ∈
      (go "0" [] sampleWorld).1 := by
  have h : ReachesLaunch sampleWorld ["-v"] "script.py" ["--flag", "x"] :=
    ⟨by decide, by decide, by decide, by decide⟩
  have main := go_cache_build_iff_miss "0" [] sampleWorld ["-v"] "script.py"
    ["--flag", "x"] h
  refine ⟨h, main.1, ?_, ?_⟩
  · exact (main.2.1 ["dep_file"]).2 ⟨by decide, by decide⟩
  · exact (main.2.2 ["pkg==1.0"] { env_bin_path := "/venvs/built/bin" }).2
      ⟨by decide, by decide, by decide⟩

theorem go_installed_handlers_witness :
    ReachesLaunch sampleWorld ["-v"] "script.py" ["--flag", "x"] ∧
    (Event.installHandler SIGTERM ∈ (go "0" [] sampleWorld).1 ↔
      (isInteractive ["-v"] = false ∧ sampleWorld.popenOk = true ∧
       SIGTERM ∈ REDIRECTED_SIGNALS)) := by
  have h : ReachesLaunch sampleWorld ["-v"] "script.py" ["--flag", "x"] :=
    ⟨by decide, by decide, by decide, by decide⟩
  exact ⟨h, (go_installed_handlers "0" [] sampleWorld ["-v"] "script.py"
    ["--flag", "x"] h).2 SIGTERM⟩

theorem go_child_command_line_witness :
    ReachesLaunch sampleWorld ["-v"] "script.py" ["--flag", "x"] ∧
    Event.popen ["/venvs/built/bin/python3", "script.py", "--flag", "x"] ∈
      (go "0" [] sampleWorld).1 := by
  have h : ReachesLaunch sampleWorld ["-v"] "script.py" ["--flag", "x"] :=
    ⟨by decide, by decide, by decide, by decide⟩
  refine ⟨h, ?_⟩
  exact (go_child_command_line "0" [] sampleWorld ["-v"] "script.py"
    ["--flag", "x"] h ["/venvs/built/bin/python3", "script.py", "--flag", "x"]).2
    (by decide)

theorem go_launch_failure_no_handlers_witness :
    failWorld.popenOk = false ∧
    Event.installHandler SIGINT ∉ (go "0" [] failWorld).1 ∧
    (∀ args, Event.popen args ∈ (go "0" [] failWorld).1 →
      (go "0" [] failWorld).2 = Outcome.raisedException) := by
  have main := go_launch_failure_no_handlers "0" [] failWorld rfl
  exact ⟨rfl, main.1 SIGINT, main.2⟩

theorem go_nonzero_exit_debug_only_witness :
    ReachesLaunch sampleWorld ["-v"] "script.py" ["--flag", "x"] ∧
    sampleWorld.childExit = 3 ∧
    (go "0" [] sampleWorld).2 = Outcome.returnedNormally ∧
    (go "0" [] sampleWorld).1 =
      (go "0" [] { sampleWorld with childExit := 0 }).1 ++
      [Event.logDebug ("Child process not finished correctly: returncode="
        ++ toString sampleWorld.childExit)] := by
  have h : ReachesLaunch sampleWorld ["-v"] "script.py" ["--flag", "x"] :=
    ⟨by decide, by decide, by decide, by decide⟩
  have main := go_nonzero_exit_debug_only "0" [] sampleWorld ["-v"]
    "script.py" ["--flag", "x"] h (by decide) rfl (by decide) (by decide)
  exact ⟨h, rfl, main.1, main.2⟩

theorem parse_argv_partiality_witness :
    (∀ s ∈ (["fades", "-q", "x.py"] : List String).drop 1, s ≠ "") ∧
    (_parse_argv ["fades", ""] = none ∧
     (_parse_argv ["fades", "-q", "x.py"]).isSome = true) := by
  have h : ∀ s ∈ (["fades", "-q", "x.py"] : List String).drop 1, s ≠ "" := by
    decide
  exact ⟨h, parse_argv_partiality "fades" [] ["fades", "-q", "x.py"] h⟩

theorem parse_argv_characterization_witness :
    (∀ s ∈ (["fades", "-v -q", "-x", "prog.py", "-k", "v"] : List String).drop 1,
      s ≠ "") ∧
    _parse_argv ["fades", "-v -q", "-x", "prog.py", "-k", "v"] =
      some (["-v", "-q", "-x"], "prog.py", ["-k", "v"]) := by
  have h : ∀ s ∈ (["fades", "-v -q", "-x", "prog.py", "-k", "v"] : List String).drop 1,
      s ≠ "" := by decide
  refine ⟨h, ?_⟩
  rw [parse_argv_characterization ["fades", "-v -q", "-x", "prog.py", "-k", "v"] h]
  decide

end Fades
